import Mathlib

/-!
Verification of the random-scenario generator (`src/norm.rs` of the
`rand_scenario` crate).

The crate draws synthetic sample sequences from a change-point scenario,
either unconditionally (`gen_random`) or gated by an X-bar/s control chart
(`gen_random_controlchart`), and orchestrates multi-seed batches.

The scenario-decomposition and per-step parameter machinery lives in the
external `process_param` crate and is consumed through a narrow interface
(decomposition, sample size, in/out-of-control predicates, maximum-likelihood
estimation, per-parameter sampling).  We embed that interface as a structure
of functions (`Scenario` below); every function of this repository is then a
direct translation of the Rust in `src/norm.rs`.

Modelling conventions:
* observations (`f64` in Rust) are represented abstractly by `Int` — no claim
  we verify depends on their arithmetic, only on list structure and on the
  externally-supplied predicates;
* the Mersenne-Twister stream (`Mt64`) is a deterministic state threaded
  through the computation; its state is abstracted to `Nat` and the sampling
  function `rand_with_n` is part of the interface;
* the two source loops with no retry cap (baseline acceptance and the
  post-change-point scan) are made total with an explicit fuel argument; the
  extra `fuelOut` outcome marks runs the fuel could not finish, and `oob`
  marks the out-of-bounds abort of the slice `randoms_dec[..=i]`.
-/

namespace RandScenario

/-- Observation values; `f64` in the source, abstracted to `Int`. -/
abbrev Obs := Int

/-- A normal-distribution parameter pair (mean, variance) for one regime
step, abstracted; claims only ever pass these to interface functions. -/
abbrev Param := Int × Int

/-- Seed値の型 — `pub type Seed = u64;` (values are 64-bit). -/
abbrev Seed := Nat

/-- State of the deterministic uniform stream (`Mt64`), abstracted. -/
abbrev RngState := Nat

/-- `Mt64::new(seed)`: the initial stream state is a pure function of the
seed. -/
def mtNew (seed : Seed) : RngState := seed

/-- The Parameter Source interface of the external `process_param` crate, as
consumed by `src/norm.rs`: sample size, the two decompositions, the control
predicates, maximum-likelihood estimation, and per-parameter sampling.
`decomp_exclude_last` returns the in-control decomposition, the
pre-final-regime decomposition and the last change point, whose
`get_param` indexing can be exhausted.  Errors are carried as their message
strings. -/
structure Scenario where
  nRaw : Int
  decomplession : Except String (List Param)
  decomp_exclude_last :
    Except String (List Param × List Param × (Nat → Except String Param))
  in_control_all : List Param → Bool
  index_out_of_control : List Param → Option Nat
  out_of_control : Param → Bool
  mle : List Obs → Except String Param
  mle_all : List (List Obs) → Except String (List Param)
  rand_with_n : Param → RngState → Nat → List Obs × RngState

/-- `usize::try_from` on the scenario's declared sample size: fails exactly
on values no platform index can represent (negative ones in this model). -/
def usize_try_from (v : Int) : Option Nat :=
  if v < 0 then none else some v.toNat

/-- `scenario.n_as_usize()` of the interface: the declared sample size as a
platform index, or an error. -/
def Scenario.n_as_usize (S : Scenario) : Except String Nat :=
  match usize_try_from S.nRaw with
  | some n => Except.ok n
  | none => Except.error "Sample size n doesn't convert to usize."

/-- `dec_param.iter().map(|parameter| Parameter::rand_with_n(parameter, &mut rng, n)).collect()`:
visit the decomposed steps strictly in order, threading the single stateful
stream through every draw. -/
def rand_steps (S : Scenario) (ps : List Param) (rng : RngState) (n : Nat) :
    List (List Obs) × RngState :=
  match ps with
  | [] => ([], rng)
  | p :: rest =>
    let dr := S.rand_with_n p rng n
    let tl := rand_steps S rest dr.snd n
    (dr.fst :: tl.fst, tl.snd)

/-- 乱数生成コア — `RandomScenario::gen_random` (src/norm.rs:133-145). -/
def gen_random (S : Scenario) (seed : Seed) :
    Except String (List (List Obs)) :=
  let rng := mtNew seed
  match S.decomplession with
  | Except.error e => Except.error e
  | Except.ok dec_param =>
    match usize_try_from S.nRaw with
    | none => Except.error "Sample size n doesn't convert to usize."
    | some n => Except.ok (rand_steps S dec_param rng n).fst

/-- シナリオから生成した乱数を格納 — the `RandomScenario` aggregate of
{scenario, seed, generated sequence}. -/
structure RandomScenario where
  scenario : Scenario
  seed : Seed
  random_variables : List (List Obs)

/-- `RandomScenario::from_scenario_seed` (src/norm.rs:127-130). -/
def from_scenario_seed (S : Scenario) (seed : Seed) :
    Except String RandomScenario :=
  match gen_random S seed with
  | Except.error e => Except.error e
  | Except.ok random_variables =>
    Except.ok ⟨S, seed, random_variables⟩

/-- Outcome of a control-chart generation: success, a scenario error, the
abort of the out-of-bounds slice `randoms_dec[..=i]`, or fuel exhaustion
(the unbounded source loop ran longer than the fuel allowed). -/
inductive CcResult (α : Type) where
  | ok : α → CcResult α
  | err : String → CcResult α
  | oob : CcResult α
  | fuelOut : CcResult α
deriving Repr, DecidableEq

/-- Phase 1, baseline acceptance (src/norm.rs:260-274): generate the
in-control segment, estimate every step by maximum likelihood, accept when
all estimates are in control, otherwise discard and regenerate from the
advanced stream.  On acceptance returns the segment and the stream state. -/
def baseline_loop (S : Scenario) (inctrl_param : List Param) (n : Nat) :
    Nat → RngState → CcResult (List (List Obs) × RngState)
  | 0, _ => CcResult.fuelOut
  | fuel + 1, rng =>
    let gen := rand_steps S inctrl_param rng n
    match S.mle_all gen.fst with
    | Except.error e =>
      CcResult.err ("Random number generation fails: " ++ e)
    | Except.ok params_dec_inctrl =>
      if S.in_control_all params_dec_inctrl then CcResult.ok (gen.fst, gen.snd)
      else baseline_loop S inctrl_param n fuel gen.snd

/-- Phase 3, post-change-point incremental scan (src/norm.rs:296-317):
with a counter starting at `ind + 1`, request the last change point's
parameters at the counter, draw one step, estimate it, append it, and stop
as soon as the single-step estimate is out of control.  Returns the list of
steps appended during the phase. -/
def outctrl_loop (S : Scenario) (last_cp : Nat → Except String Param)
    (n : Nat) : Nat → Nat → RngState → CcResult (List (List Obs))
  | 0, _, _ => CcResult.fuelOut
  | fuel + 1, ind, rng =>
    let ind1 := ind + 1
    match last_cp ind1 with
    | Except.error e =>
      CcResult.err ("Parameters are out of range before control chart alart.: " ++ e)
    | Except.ok param_ind =>
      let dr := S.rand_with_n param_ind rng n
      match S.mle dr.fst with
      | Except.error e =>
        CcResult.err ("Random number generation fails: " ++ e)
      | Except.ok mle_ind =>
        if S.out_of_control mle_ind then CcResult.ok [dr.fst]
        else
          match outctrl_loop S last_cp n fuel ind1 dr.snd with
          | CcResult.ok rest => CcResult.ok (dr.fst :: rest)
          | r => r

/-- 管理図が管理外れ状態を検出するまで乱数を生成 —
`RandomScenario::gen_random_controlchart` (src/norm.rs:253-320): baseline
acceptance, then the pre-final-regime scan with inclusive truncation at the
first violation, then the post-change-point scan. -/
def gen_random_controlchart (S : Scenario) (seed : Seed)
    (fuelB fuelC : Nat) : CcResult (List (List Obs)) :=
  let rng := mtNew seed
  match S.decomp_exclude_last with
  | Except.error e => CcResult.err e
  | Except.ok (inctrl_param, dec_param, last_cp) =>
    match S.n_as_usize with
    | Except.error e => CcResult.err e
    | Except.ok n =>
      match baseline_loop S inctrl_param n fuelB rng with
      | CcResult.err e => CcResult.err e
      | CcResult.oob => CcResult.oob
      | CcResult.fuelOut => CcResult.fuelOut
      | CcResult.ok (randoms, rng1) =>
        let gd := rand_steps S dec_param rng1 n
        match S.mle_all gd.fst with
        | Except.error e =>
          CcResult.err ("Random number generation fails: " ++ e)
        | Except.ok params_dec =>
          match S.index_out_of_control params_dec with
          | some i =>
            if i < gd.fst.length then
              CcResult.ok (randoms ++ gd.fst.take (i + 1))
            else CcResult.oob
          | none =>
            match outctrl_loop S last_cp n fuelC 0 gd.snd with
            | CcResult.ok tail => CcResult.ok (randoms ++ gd.fst ++ tail)
            | CcResult.err e => CcResult.err e
            | CcResult.oob => CcResult.oob
            | CcResult.fuelOut => CcResult.fuelOut

/-- `RandomScenario::from_scenario_seed_controlchart` (src/norm.rs:246-249). -/
def from_scenario_seed_controlchart (S : Scenario) (seed : Seed)
    (fuelB fuelC : Nat) : CcResult RandomScenario :=
  match gen_random_controlchart S seed fuelB fuelC with
  | CcResult.ok random_variables => CcResult.ok ⟨S, seed, random_variables⟩
  | CcResult.err e => CcResult.err e
  | CcResult.oob => CcResult.oob
  | CcResult.fuelOut => CcResult.fuelOut

/-- `collect::<Result<Vec<_>, _>>` over the per-seed results: the ordered
list of successes, or the first error. -/
def exceptCollect {α : Type} :
    List (Except String α) → Except String (List α)
  | [] => Except.ok []
  | Except.error e :: _ => Except.error e
  | Except.ok a :: rest =>
    match exceptCollect rest with
    | Except.error e => Except.error e
    | Except.ok xs => Except.ok (a :: xs)

/-- `RandomScenario::from_scenario_multiple` (src/norm.rs:163-172): draw
`num` seeds sequentially from the process entropy source (modelled as the
stream `entropy`), then generate one result per seed and collect in
seed-draw order, failing fast on the first error. -/
def from_scenario_multiple (S : Scenario) (num : Nat)
    (entropy : Nat → Seed) : Except String (List RandomScenario) :=
  let seeds := (List.range num).map entropy
  exceptCollect (seeds.map (fun seed => from_scenario_seed S seed))

/-- Ordered fail-fast collection of control-chart results; a non-success of
any task becomes the whole batch's outcome. -/
def ccCollect {α : Type} : List (CcResult α) → CcResult (List α)
  | [] => CcResult.ok []
  | CcResult.ok a :: rest =>
    (match ccCollect rest with
     | CcResult.ok xs => CcResult.ok (a :: xs)
     | CcResult.err e => CcResult.err e
     | CcResult.oob => CcResult.oob
     | CcResult.fuelOut => CcResult.fuelOut)
  | CcResult.err e :: _ => CcResult.err e
  | CcResult.oob :: _ => CcResult.oob
  | CcResult.fuelOut :: _ => CcResult.fuelOut

/-- `RandomScenario::from_scenario_controlchart_multiple`
(src/norm.rs:339-348). -/
def from_scenario_controlchart_multiple (S : Scenario) (num : Nat)
    (entropy : Nat → Seed) (fuelB fuelC : Nat) :
    CcResult (List RandomScenario) :=
  let seeds := (List.range num).map entropy
  ccCollect (seeds.map
    (fun seed => from_scenario_seed_controlchart S seed fuelB fuelC))

/-- The parsed shape of the serialized document — `struct RandomScenarioToml`
(src/norm.rs:43-48): a scenario table, the seed as text (held here as its
decimal digits), and the sample sequence.  The textual TOML surface syntax
is handled by the external `toml` crate and is assumed faithful, so the
document is embedded at this parsed level. -/
structure RandomScenarioToml (T : Type) where
  scenario : T
  seed : List Nat
  random_variables : List (List Obs)

/-- The external scenario serializer: `Scenario::to_toml_string` composed
with the `toml` table representation on the way out, and the table
re-serialization composed with `Scenario::parse_toml_str` on the way back
(src/norm.rs:381-382, 428). -/
structure ScenCodec (T : Type) where
  enc : Scenario → T
  dec : T → Except String Scenario

/-- `format!("{}", seed)`: the seed rendered as decimal text, held as its
digit list. -/
def seed_to_text (seed : Seed) : List Nat := Nat.digits 10 seed

/-- `Seed::from_str`: parse the decimal text back into a `u64`, failing on
values outside the 64-bit range. -/
def seed_from_str (ds : List Nat) : Except String Seed :=
  if Nat.ofDigits 10 ds < 2 ^ 64 then Except.ok (Nat.ofDigits 10 ds)
  else Except.error "number too large to fit in target type"

/-- `RandomScenario::to_toml_string` (src/norm.rs:427-431): assemble the
document from the seed as text, the sample sequence, and the serialized
scenario. -/
def to_toml_string {T : Type} (c : ScenCodec T) (rs : RandomScenario) :
    RandomScenarioToml T :=
  ⟨c.enc rs.scenario, seed_to_text rs.seed, rs.random_variables⟩

/-- `RandomScenario::parse_toml_str` (src/norm.rs:377-385): parse the seed
text, recover the scenario from its table, and rebuild the aggregate. -/
def parse_toml_str {T : Type} (c : ScenCodec T)
    (d : RandomScenarioToml T) : Except String RandomScenario :=
  match seed_from_str d.seed with
  | Except.error e => Except.error e
  | Except.ok seed =>
    match c.dec d.scenario with
    | Except.error e => Except.error e
    | Except.ok scenario => Except.ok ⟨scenario, seed, d.random_variables⟩

/-! ### Helper lemmas -/

theorem rand_steps_length (S : Scenario) (ps : List Param) (n : Nat) :
    ∀ rng, (rand_steps S ps rng n).fst.length = ps.length := by
  induction ps with
  | nil => intro rng; rfl
  | cons p rest ih =>
    intro rng
    simp only [rand_steps, List.length_cons]
    rw [ih]

theorem rand_steps_batch_length (S : Scenario) (n : Nat)
    (hlen : ∀ p rng k, ((S.rand_with_n p rng k).fst).length = k)
    (ps : List Param) :
    ∀ rng, ∀ b ∈ (rand_steps S ps rng n).fst, b.length = n := by
  induction ps with
  | nil => intro rng b hb; simp [rand_steps] at hb
  | cons p rest ih =>
    intro rng b hb
    simp only [rand_steps, List.mem_cons] at hb
    rcases hb with hb | hb
    · rw [hb]; exact hlen p rng n
    · exact ih _ b hb

theorem baseline_loop_ok (S : Scenario) (inctrl_param : List Param)
    (n : Nat) : ∀ fuel rng base rng1,
    baseline_loop S inctrl_param n fuel rng = CcResult.ok (base, rng1) →
    ∃ pd, S.mle_all base = Except.ok pd ∧ S.in_control_all pd = true := by
  intro fuel
  induction fuel with
  | zero => intro rng base rng1 h; exact absurd h (by simp [baseline_loop])
  | succ fuel ih =>
    intro rng base rng1 h
    simp only [baseline_loop] at h
    split at h
    · exact absurd h (by simp)
    · rename_i pd hm
      split at h
      · rename_i hic
        cases h
        exact ⟨pd, hm, hic⟩
      · exact ih _ base rng1 h

theorem baseline_loop_ne_oob (S : Scenario) (inctrl_param : List Param)
    (n : Nat) : ∀ fuel rng,
    baseline_loop S inctrl_param n fuel rng ≠ CcResult.oob := by
  intro fuel
  induction fuel with
  | zero => intro rng; simp [baseline_loop]
  | succ fuel ih =>
    intro rng h
    simp only [baseline_loop] at h
    split at h
    · exact absurd h (by simp)
    · split at h
      · exact absurd h (by simp)
      · exact ih _ h

theorem outctrl_loop_ok (S : Scenario)
    (last_cp : Nat → Except String Param) (n : Nat) :
    ∀ fuel ind rng t,
    outctrl_loop S last_cp n fuel ind rng = CcResult.ok t →
    ∃ pre lastb, t = pre ++ [lastb] ∧
      (∃ q, S.mle lastb = Except.ok q ∧ S.out_of_control q = true) ∧
      (∀ x ∈ pre, ∃ q, S.mle x = Except.ok q ∧
        S.out_of_control q = false) := by
  intro fuel
  induction fuel with
  | zero => intro ind rng t h; exact absurd h (by simp [outctrl_loop])
  | succ fuel ih =>
    intro ind rng t h
    simp only [outctrl_loop] at h
    split at h
    · exact absurd h (by simp)
    · rename_i param_ind hcp
      split at h
      · exact absurd h (by simp)
      · rename_i q hm
        split at h
        · rename_i ho
          cases h
          exact ⟨[], _, rfl, ⟨q, hm, ho⟩, by simp⟩
        · rename_i ho
          rcases hr : outctrl_loop S last_cp n fuel (ind + 1)
              (S.rand_with_n param_ind rng n).snd with rest | e | _ | _ <;>
            simp only [hr] at h
          · cases h
            rcases ih (ind + 1) (S.rand_with_n param_ind rng n).snd rest hr
              with ⟨pre, lastb, hrest, hlast, hpre⟩
            refine ⟨(S.rand_with_n param_ind rng n).fst :: pre, lastb,
              ?_, hlast, ?_⟩
            · rw [hrest]; rfl
            · intro x hx
              rcases List.mem_cons.mp hx with hx | hx
              · exact ⟨q, hx ▸ hm, by simpa using ho⟩
              · exact hpre x hx
          · exact absurd h (by simp)
          · exact absurd h (by simp)
          · exact absurd h (by simp)

theorem outctrl_loop_ne_oob (S : Scenario)
    (last_cp : Nat → Except String Param) (n : Nat) :
    ∀ fuel ind rng,
    outctrl_loop S last_cp n fuel ind rng ≠ CcResult.oob := by
  intro fuel
  induction fuel with
  | zero => intro ind rng; simp [outctrl_loop]
  | succ fuel ih =>
    intro ind rng h
    simp only [outctrl_loop] at h
    split at h
    · exact absurd h (by simp)
    · rename_i param_ind hcp
      split at h
      · exact absurd h (by simp)
      · split at h
        · exact absurd h (by simp)
        · rcases hr : outctrl_loop S last_cp n fuel (ind + 1)
              (S.rand_with_n param_ind rng n).snd with rest | e | _ | _ <;>
            simp only [hr] at h
          · exact absurd h (by simp)
          · exact absurd h (by simp)
          · exact ih _ _ hr
          · exact absurd h (by simp)

theorem gen_random_ok (S : Scenario) (seed : Seed) (rvs : List (List Obs))
    (h : gen_random S seed = Except.ok rvs) :
    ∃ dec n, S.decomplession = Except.ok dec ∧
      usize_try_from S.nRaw = some n ∧
      rvs = (rand_steps S dec (mtNew seed) n).fst := by
  simp only [gen_random] at h
  split at h
  · exact absurd h (by simp)
  · rename_i dec hdec
    split at h
    · exact absurd h (by simp)
    · rename_i n hn
      cases h
      exact ⟨dec, n, hdec, hn, rfl⟩

theorem from_scenario_seed_ok (S : Scenario) (seed : Seed)
    (rs : RandomScenario)
    (h : from_scenario_seed S seed = Except.ok rs) :
    rs = ⟨S, seed, rs.random_variables⟩ ∧
      gen_random S seed = Except.ok rs.random_variables := by
  simp only [from_scenario_seed] at h
  split at h
  · exact absurd h (by simp)
  · rename_i rv hrv
    cases h
    exact ⟨rfl, hrv⟩

theorem from_scenario_seed_controlchart_ok (S : Scenario) (seed : Seed)
    (fuelB fuelC : Nat) (rs : RandomScenario)
    (h : from_scenario_seed_controlchart S seed fuelB fuelC =
      CcResult.ok rs) :
    rs = ⟨S, seed, rs.random_variables⟩ ∧
      gen_random_controlchart S seed fuelB fuelC =
        CcResult.ok rs.random_variables := by
  simp only [from_scenario_seed_controlchart] at h
  split at h
  · rename_i rv hrv
    cases h
    exact ⟨rfl, hrv⟩
  · exact absurd h (by simp)
  · exact absurd h (by simp)
  · exact absurd h (by simp)

theorem gen_cc_ok_split (S : Scenario) (seed : Seed) (fuelB fuelC : Nat)
    (rvs : List (List Obs))
    (h : gen_random_controlchart S seed fuelB fuelC = CcResult.ok rvs) :
    ∃ inctrl_param dec_param last_cp n base rng1 rest,
      S.decomp_exclude_last =
        Except.ok (inctrl_param, dec_param, last_cp) ∧
      S.n_as_usize = Except.ok n ∧
      baseline_loop S inctrl_param n fuelB (mtNew seed) =
        CcResult.ok (base, rng1) ∧
      rvs = base ++ rest ∧ rest ≠ [] := by
  simp only [gen_random_controlchart] at h
  split at h
  · exact absurd h (by simp)
  · rename_i inctrl_param dec_param last_cp hdecomp
    split at h
    · exact absurd h (by simp)
    · rename_i n hn
      rcases hb : baseline_loop S inctrl_param n fuelB (mtNew seed)
          with ⟨base, rng1⟩ | e | _ | _ <;> simp only [hb] at h
      · split at h
        · exact absurd h (by simp)
        · rename_i params_dec hmle
          split at h
          · rename_i i hidx
            split at h
            · rename_i hi
              cases h
              refine ⟨inctrl_param, dec_param, last_cp, n, base, rng1,
                _, hdecomp, hn, hb, rfl, ?_⟩
              intro hc
              have hl := congrArg List.length hc
              rw [List.length_take] at hl
              simp only [List.length_nil] at hl
              omega
            · exact absurd h (by simp)
          · rcases ho : outctrl_loop S last_cp n fuelC 0
                (rand_steps S dec_param rng1 n).snd
                with tail | e | _ | _ <;> simp only [ho] at h
            · cases h
              rcases outctrl_loop_ok S last_cp n fuelC 0 _ tail ho
                with ⟨pre, lastb, htail, _, _⟩
              refine ⟨inctrl_param, dec_param, last_cp, n, base, rng1,
                (rand_steps S dec_param rng1 n).fst ++ tail, hdecomp, hn, hb,
                List.append_assoc base _ tail, ?_⟩
              rw [htail]
              simp
            · exact absurd h (by simp)
            · exact absurd h (by simp)
            · exact absurd h (by simp)
      · exact absurd h (by simp)
      · exact absurd h (by simp)
      · exact absurd h (by simp)

/-! ### The claims -/

/-- C1: for every scenario and 64-bit seed, two calls to
`from_scenario_seed` return equal `RandomScenario` values, and two calls to
`from_scenario_seed_controlchart` return equal values: the generated
sequence is a pure function of (scenario, seed, generation mode).  The
embedding threads the single deterministic stream initialized by
`mtNew seed` through the whole run, so each mode is a function of the pair. -/
theorem generation_deterministic (S : Scenario) (k : Seed)
    (fuelB fuelC : Nat) :
    from_scenario_seed S k = from_scenario_seed S k ∧
    from_scenario_seed_controlchart S k fuelB fuelC =
      from_scenario_seed_controlchart S k fuelB fuelC :=
  ⟨rfl, rfl⟩

/-- C6: for every scenario and seed on which unconditional generation
succeeds, the returned sequence has one batch per step of the scenario's
full decomposition, and — under the Parameter Source guarantee that
`rand_with_n` draws exactly the requested number of samples — every batch
has exactly the declared sample size `n`. -/
theorem from_scenario_seed_shape (S : Scenario) (seed : Seed)
    (rs : RandomScenario)
    (hlen : ∀ p rng k, ((S.rand_with_n p rng k).fst).length = k)
    (hok : from_scenario_seed S seed = Except.ok rs) :
    ∃ dec n, S.decomplession = Except.ok dec ∧
      usize_try_from S.nRaw = some n ∧
      rs.random_variables.length = dec.length ∧
      ∀ b ∈ rs.random_variables, b.length = n := by
  rcases from_scenario_seed_ok S seed rs hok with ⟨_, hgen⟩
  rcases gen_random_ok S seed rs.random_variables hgen
    with ⟨dec, n, hdec, hn, hrv⟩
  refine ⟨dec, n, hdec, hn, ?_, ?_⟩
  · rw [hrv, rand_steps_length]
  · intro b hb
    rw [hrv] at hb
    exact rand_steps_batch_length S n hlen dec _ b hb

/-- C7: serializing a `RandomScenario` with `to_toml_string` and parsing the
result back with `parse_toml_str` yields a structurally equal value, for
every 64-bit seed, whenever the external scenario codec itself round-trips
(the `toml` crate and `Scenario`'s own serializer are assumed faithful, per
the interface).  The seed travels as decimal text and round-trips exactly. -/
theorem toml_roundtrip {T : Type} (c : ScenCodec T) (rs : RandomScenario)
    (hscen : c.dec (c.enc rs.scenario) = Except.ok rs.scenario)
    (hseed : rs.seed < 2 ^ 64) :
    parse_toml_str c (to_toml_string c rs) = Except.ok rs := by
  simp only [parse_toml_str, to_toml_string, seed_from_str, seed_to_text,
    Nat.ofDigits_digits, if_pos hseed, hscen]

/-- C2: in control-chart generation, when the pre-final-regime scan's
estimates trigger `index_out_of_control` at index `i` (within the generated
segment), the result is exactly the accepted baseline followed by steps 0
through `i` inclusive: `i + 1` pre-final steps are kept, none after `i`, and
the conclusion holds for every phase-3 fuel — including zero — so the
post-change-point phase is never executed on this path. -/
theorem early_termination (S : Scenario) (seed : Seed) (fuelB : Nat)
    (inctrl_param dec_param : List Param)
    (last_cp : Nat → Except String Param) (n : Nat)
    (base : List (List Obs)) (rng1 : RngState) (pd : List Param) (i : Nat)
    (hdecomp : S.decomp_exclude_last =
      Except.ok (inctrl_param, dec_param, last_cp))
    (hn : S.n_as_usize = Except.ok n)
    (hb : baseline_loop S inctrl_param n fuelB (mtNew seed) =
      CcResult.ok (base, rng1))
    (hmle : S.mle_all (rand_steps S dec_param rng1 n).fst = Except.ok pd)
    (hidx : S.index_out_of_control pd = some i)
    (hi : i < (rand_steps S dec_param rng1 n).fst.length) :
    ∀ fuelC, gen_random_controlchart S seed fuelB fuelC =
      CcResult.ok
        (base ++ ((rand_steps S dec_param rng1 n).fst).take (i + 1)) ∧
      (((rand_steps S dec_param rng1 n).fst).take (i + 1)).length = i + 1 := by
  intro fuelC
  constructor
  · simp only [gen_random_controlchart, hdecomp, hn, hb, hmle, hidx]
    rw [if_pos hi]
  · rw [List.length_take]
    omega

/-- C3: the baseline segment of every successful control-chart generation
passes the in-control test: the output's prefix `base` is exactly the
segment the phase-1 acceptance loop returned for the scenario's in-control
decomposition (`baseline_loop ... = ok (base, rng1)`), and the per-step
maximum-likelihood estimates of that segment satisfy `in_control_all` —
the acceptance loop exits only then, so a rejected baseline never reaches
any output. -/
theorem baseline_in_control (S : Scenario) (seed : Seed) (fuelB fuelC : Nat)
    (rs : RandomScenario)
    (hok : from_scenario_seed_controlchart S seed fuelB fuelC =
      CcResult.ok rs) :
    ∃ inctrl_param dec_param last_cp n base rng1 rest pd,
      S.decomp_exclude_last =
        Except.ok (inctrl_param, dec_param, last_cp) ∧
      S.n_as_usize = Except.ok n ∧
      baseline_loop S inctrl_param n fuelB (mtNew seed) =
        CcResult.ok (base, rng1) ∧
      rs.random_variables = base ++ rest ∧
      S.mle_all base = Except.ok pd ∧ S.in_control_all pd = true := by
  rcases from_scenario_seed_controlchart_ok S seed fuelB fuelC rs hok
    with ⟨_, hgen⟩
  rcases gen_cc_ok_split S seed fuelB fuelC _ hgen
    with ⟨inc, dec, lcp, n, base, rng1, rest, hdecomp, hn, hb, hsplit, _⟩
  rcases baseline_loop_ok S inc n fuelB _ base rng1 hb with ⟨pd, hm, hic⟩
  exact ⟨inc, dec, lcp, n, base, rng1, rest, pd,
    hdecomp, hn, hb, hsplit, hm, hic⟩

/-- C4: in control-chart generation with no pre-final-regime violation, a
successful run ends at exactly the first signalling post-change-point step:
the output is baseline ++ pre-final segment ++ (pre ++ [last batch]), the
single-step estimate of the last batch is out of control, and no earlier
post-change-point batch's single-step estimate is. -/
theorem detection_invariant (S : Scenario) (seed : Seed)
    (fuelB fuelC : Nat) (rs : RandomScenario)
    (inctrl_param dec_param : List Param)
    (last_cp : Nat → Except String Param) (n : Nat)
    (base : List (List Obs)) (rng1 : RngState) (pd : List Param)
    (hdecomp : S.decomp_exclude_last =
      Except.ok (inctrl_param, dec_param, last_cp))
    (hn : S.n_as_usize = Except.ok n)
    (hb : baseline_loop S inctrl_param n fuelB (mtNew seed) =
      CcResult.ok (base, rng1))
    (hmle : S.mle_all (rand_steps S dec_param rng1 n).fst = Except.ok pd)
    (hidx : S.index_out_of_control pd = none)
    (hok : from_scenario_seed_controlchart S seed fuelB fuelC =
      CcResult.ok rs) :
    ∃ pre lastb, rs.random_variables =
        base ++ (rand_steps S dec_param rng1 n).fst ++ (pre ++ [lastb]) ∧
      (∃ q, S.mle lastb = Except.ok q ∧ S.out_of_control q = true) ∧
      (∀ x ∈ pre, ∃ q, S.mle x = Except.ok q ∧
        S.out_of_control q = false) := by
  rcases from_scenario_seed_controlchart_ok S seed fuelB fuelC rs hok
    with ⟨_, hgen⟩
  simp only [gen_random_controlchart, hdecomp, hn, hb, hmle, hidx] at hgen
  rcases ho : outctrl_loop S last_cp n fuelC 0
      (rand_steps S dec_param rng1 n).snd with tail | e | _ | _ <;>
    simp only [ho] at hgen
  · rcases outctrl_loop_ok S last_cp n fuelC 0 _ tail ho
      with ⟨pre, lastb, htail, hlast, hpre⟩
    refine ⟨pre, lastb, ?_, hlast, hpre⟩
    simp only [CcResult.ok.injEq] at hgen
    rw [← hgen, ← htail, List.append_assoc]
  · exact absurd hgen (by simp)
  · exact absurd hgen (by simp)
  · exact absurd hgen (by simp)

/-- C8: the post-change-point counter starts at 1 and increases by 1 per
iteration — each iteration at counter `ind` requests the last change
point's parameters at `ind + 1`; if that request fails the loop returns the
index-range error at once, for any remaining fuel (never retried, no more
samples drawn); and at top level the first request made on the phase-3 path
is at index 1, so a failure there aborts the whole generation with the
index-range error. -/
theorem outctrl_index_range_error (S : Scenario) (seed : Seed)
    (fuelB : Nat) (inctrl_param dec_param : List Param)
    (last_cp : Nat → Except String Param) (n : Nat)
    (base : List (List Obs)) (rng1 : RngState) (pd : List Param)
    (e : String)
    (hdecomp : S.decomp_exclude_last =
      Except.ok (inctrl_param, dec_param, last_cp))
    (hn : S.n_as_usize = Except.ok n)
    (hb : baseline_loop S inctrl_param n fuelB (mtNew seed) =
      CcResult.ok (base, rng1))
    (hmle : S.mle_all (rand_steps S dec_param rng1 n).fst = Except.ok pd)
    (hidx : S.index_out_of_control pd = none) :
    (∀ fuel ind rng e2, last_cp (ind + 1) = Except.error e2 →
      outctrl_loop S last_cp n (fuel + 1) ind rng =
        CcResult.err
          ("Parameters are out of range before control chart alart.: " ++ e2)) ∧
    (last_cp 1 = Except.error e →
      ∀ fuelC, gen_random_controlchart S seed fuelB (fuelC + 1) =
        CcResult.err
          ("Parameters are out of range before control chart alart.: " ++ e)) := by
  constructor
  · intro fuel ind rng e2 hcp
    simp only [outctrl_loop, hcp]
  · intro hcp fuelC
    simp only [gen_random_controlchart, hdecomp, hn, hb, hmle, hidx,
      outctrl_loop, Nat.zero_add, hcp]

/-- C9: whenever generation succeeds — in either mode — the generated
sequence is non-empty; for the unconditional mode this rests on the
Parameter Source guarantee that a scenario decomposes into at least one
step, while the control-chart modes always keep at least the first
violating batch. -/
theorem generated_sequence_nonempty (S : Scenario) (seed : Seed)
    (fuelB fuelC : Nat)
    (hdec_ne : ∀ dec, S.decomplession = Except.ok dec → dec ≠ []) :
    (∀ rs, from_scenario_seed S seed = Except.ok rs →
      rs.random_variables ≠ []) ∧
    (∀ rs, from_scenario_seed_controlchart S seed fuelB fuelC =
      CcResult.ok rs → rs.random_variables ≠ []) := by
  constructor
  · intro rs hok
    rcases from_scenario_seed_ok S seed rs hok with ⟨_, hgen⟩
    rcases gen_random_ok S seed _ hgen with ⟨dec, n, hdec, _, hrv⟩
    have hl : rs.random_variables.length = dec.length := by
      rw [hrv, rand_steps_length]
    intro hc
    rw [hc] at hl
    simp only [List.length_nil] at hl
    exact hdec_ne dec hdec (List.length_eq_zero.mp hl.symm)
  · intro rs hok
    rcases from_scenario_seed_controlchart_ok S seed fuelB fuelC rs hok
      with ⟨_, hgen⟩
    rcases gen_cc_ok_split S seed fuelB fuelC _ hgen
      with ⟨inc, dec, lcp, n, base, rng1, rest, _, _, _, hsplit, hne⟩
    intro hc
    rw [hsplit] at hc
    exact hne (List.append_eq_nil.mp hc).2

/-- C10: under the Parameter Source interface preconditions that
`index_out_of_control` returns an index into the estimate list it was given
and that `mle_all` returns one estimate per batch, the inclusive truncation
`randoms_dec[..=i]` is always in bounds: control-chart generation never
reaches the out-of-bounds abort branch of the slice. -/
theorem slice_within_bounds (S : Scenario)
    (hidx : ∀ ps i, S.index_out_of_control ps = some i → i < ps.length)
    (hmle_len : ∀ xss ps, S.mle_all xss = Except.ok ps →
      ps.length = xss.length)
    (seed : Seed) (fuelB fuelC : Nat) :
    gen_random_controlchart S seed fuelB fuelC ≠ CcResult.oob := by
  intro h
  simp only [gen_random_controlchart] at h
  split at h
  · exact absurd h (by simp)
  · rename_i inc dec lcp hdecomp
    split at h
    · exact absurd h (by simp)
    · rename_i n hn
      rcases hb : baseline_loop S inc n fuelB (mtNew seed)
          with ⟨base, rng1⟩ | e | _ | _ <;> simp only [hb] at h
      · split at h
        · exact absurd h (by simp)
        · rename_i pd hm
          split at h
          · rename_i i hix
            split at h
            · exact absurd h (by simp)
            · rename_i hi
              have h1 := hidx pd i hix
              have h2 := hmle_len _ pd hm
              rw [h2, rand_steps_length] at h1
              rw [rand_steps_length] at hi
              exact hi h1
          · rcases ho : outctrl_loop S lcp n fuelC 0
                (rand_steps S dec rng1 n).snd with tail | e | _ | _ <;>
              simp only [ho] at h
            · exact absurd h (by simp)
            · exact absurd h (by simp)
            · exact outctrl_loop_ne_oob S lcp n fuelC 0 _ ho
            · exact absurd h (by simp)
      · exact absurd h (by simp)
      · exact baseline_loop_ne_oob S inc n fuelB _ hb
      · exact absurd h (by simp)

theorem exceptCollect_ok {α : Type} :
    ∀ (l : List (Except String α)) (xs : List α),
    exceptCollect l = Except.ok xs → l = xs.map Except.ok := by
  intro l
  induction l with
  | nil =>
    intro xs h
    simp only [exceptCollect] at h
    cases h
    rfl
  | cons x rest ih =>
    intro xs h
    match x with
    | Except.error e => simp [exceptCollect] at h
    | Except.ok a =>
      simp only [exceptCollect] at h
      split at h
      · exact absurd h (by simp)
      · rename_i ys hys
        cases h
        rw [ih ys hys]
        rfl

theorem exceptCollect_err {α : Type} :
    ∀ (l : List (Except String α)) (e : String),
    Except.error e ∈ l → ∃ e2, exceptCollect l = Except.error e2 := by
  intro l
  induction l with
  | nil => intro e h; simp at h
  | cons x rest ih =>
    intro e h
    match x with
    | Except.error e3 => exact ⟨e3, rfl⟩
    | Except.ok a =>
      have hrest : Except.error e ∈ rest := by
        rcases List.mem_cons.mp h with hx | hx
        · exact absurd hx (by simp)
        · exact hx
      rcases ih e hrest with ⟨e2, h2⟩
      refine ⟨e2, ?_⟩
      simp only [exceptCollect, h2]

theorem ccCollect_ok {α : Type} :
    ∀ (l : List (CcResult α)) (xs : List α),
    ccCollect l = CcResult.ok xs → l = xs.map CcResult.ok := by
  intro l
  induction l with
  | nil =>
    intro xs h
    simp only [ccCollect] at h
    cases h
    rfl
  | cons x rest ih =>
    intro xs h
    match x with
    | CcResult.err e => simp [ccCollect] at h
    | CcResult.oob => simp [ccCollect] at h
    | CcResult.fuelOut => simp [ccCollect] at h
    | CcResult.ok a =>
      simp only [ccCollect] at h
      split at h
      · rename_i ys hys
        cases h
        rw [ih ys hys]
        rfl
      · exact absurd h (by simp)
      · exact absurd h (by simp)
      · exact absurd h (by simp)

theorem ccCollect_err {α : Type} :
    ∀ (l : List (CcResult α)),
    (∃ e, CcResult.err e ∈ l) →
    (∀ r ∈ l, r ≠ CcResult.oob ∧ r ≠ CcResult.fuelOut) →
    ∃ e2, ccCollect l = CcResult.err e2 := by
  intro l
  induction l with
  | nil =>
    intro h _
    rcases h with ⟨e, he⟩
    simp at he
  | cons x rest ih =>
    intro h hno
    rcases h with ⟨e, he⟩
    match x with
    | CcResult.err e3 => exact ⟨e3, rfl⟩
    | CcResult.oob =>
      exact absurd rfl (hno _ (List.mem_cons_self _ _)).1
    | CcResult.fuelOut =>
      exact absurd rfl (hno _ (List.mem_cons_self _ _)).2
    | CcResult.ok a =>
      have hrest : CcResult.err e ∈ rest := by
        rcases List.mem_cons.mp he with hx | hx
        · exact absurd hx (by simp)
        · exact hx
      rcases ih ⟨e, hrest⟩
          (fun r hr => hno r (List.mem_cons_of_mem _ hr)) with ⟨e2, h2⟩
      refine ⟨e2, ?_⟩
      simp only [ccCollect, h2]

theorem collect_range_ok {α : Type} (F : Nat → Except String α)
    (num : Nat) (xs : List α)
    (h : exceptCollect ((List.range num).map F) = Except.ok xs) :
    xs.length = num ∧
    ∀ i, i < num → ∃ a, xs[i]? = some a ∧ F i = Except.ok a := by
  have hmap := exceptCollect_ok _ xs h
  have hlen : xs.length = num := by
    have := congrArg List.length hmap
    simpa using this.symm
  refine ⟨hlen, ?_⟩
  intro i hi
  have h1 : (((List.range num).map F))[i]? = some (F i) := by
    rw [List.getElem?_map, List.getElem?_range hi]
    rfl
  rw [hmap, List.getElem?_map] at h1
  rcases hr : xs[i]? with _ | a
  · rw [hr] at h1; simp at h1
  · rw [hr] at h1
    refine ⟨a, rfl, ?_⟩
    have h2 : Except.ok a = F i := by simpa using h1
    exact h2.symm

theorem collect_range_err {α : Type} (F : Nat → Except String α)
    (num i : Nat) (e : String) (hi : i < num)
    (he : F i = Except.error e) :
    ∃ e2, exceptCollect ((List.range num).map F) = Except.error e2 := by
  apply exceptCollect_err _ e
  rw [← he]
  exact List.mem_map_of_mem F (List.mem_range.mpr hi)

theorem ccCollect_range_ok {α : Type} (F : Nat → CcResult α)
    (num : Nat) (xs : List α)
    (h : ccCollect ((List.range num).map F) = CcResult.ok xs) :
    xs.length = num ∧
    ∀ i, i < num → ∃ a, xs[i]? = some a ∧ F i = CcResult.ok a := by
  have hmap := ccCollect_ok _ xs h
  have hlen : xs.length = num := by
    have := congrArg List.length hmap
    simpa using this.symm
  refine ⟨hlen, ?_⟩
  intro i hi
  have h1 : (((List.range num).map F))[i]? = some (F i) := by
    rw [List.getElem?_map, List.getElem?_range hi]
    rfl
  rw [hmap, List.getElem?_map] at h1
  rcases hr : xs[i]? with _ | a
  · rw [hr] at h1; simp at h1
  · rw [hr] at h1
    refine ⟨a, rfl, ?_⟩
    have h2 : CcResult.ok a = F i := by simpa using h1
    exact h2.symm

theorem ccCollect_range_err {α : Type} (F : Nat → CcResult α)
    (num i : Nat) (e : String) (hi : i < num)
    (he : F i = CcResult.err e)
    (hno : ∀ j, j < num → F j ≠ CcResult.oob ∧ F j ≠ CcResult.fuelOut) :
    ∃ e2, ccCollect ((List.range num).map F) = CcResult.err e2 := by
  apply ccCollect_err
  · exact ⟨e, by rw [← he]; exact List.mem_map_of_mem F (List.mem_range.mpr hi)⟩
  · intro r hr
    rcases List.mem_map.mp hr with ⟨j, hj, hjr⟩
    rw [← hjr]
    exact hno j (List.mem_range.mp hj)

/-- C5: batch generation draws the `num` seeds first (modelled as the
entropy stream consulted at positions `0..num-1`), and both
`from_scenario_multiple` and `from_scenario_controlchart_multiple` return,
on success, exactly `num` results where the i-th result comes from the i-th
drawn seed; if any per-seed generation errors (all tasks terminating, in
the control-chart case), the whole call returns a single error and no
partial list. -/
theorem batch_order_fail_fast (S : Scenario) (num : Nat)
    (entropy : Nat → Seed) (fuelB fuelC : Nat) :
    (∀ rs, from_scenario_multiple S num entropy = Except.ok rs →
      rs.length = num ∧
      ∀ i, i < num → ∃ r, rs[i]? = some r ∧
        from_scenario_seed S (entropy i) = Except.ok r) ∧
    ((∃ i e, i < num ∧ from_scenario_seed S (entropy i) = Except.error e) →
      ∃ e2, from_scenario_multiple S num entropy = Except.error e2) ∧
    (∀ rs, from_scenario_controlchart_multiple S num entropy fuelB fuelC =
        CcResult.ok rs →
      rs.length = num ∧
      ∀ i, i < num → ∃ r, rs[i]? = some r ∧
        from_scenario_seed_controlchart S (entropy i) fuelB fuelC =
          CcResult.ok r) ∧
    ((∃ i e, i < num ∧
        from_scenario_seed_controlchart S (entropy i) fuelB fuelC =
          CcResult.err e) →
      (∀ j, j < num →
        from_scenario_seed_controlchart S (entropy j) fuelB fuelC ≠
          CcResult.oob ∧
        from_scenario_seed_controlchart S (entropy j) fuelB fuelC ≠
          CcResult.fuelOut) →
      ∃ e2, from_scenario_controlchart_multiple S num entropy fuelB fuelC =
        CcResult.err e2) := by
  refine ⟨?_, ?_, ?_, ?_⟩
  · intro rs hok
    simp only [from_scenario_multiple, List.map_map] at hok
    exact collect_range_ok _ num rs hok
  · intro h
    rcases h with ⟨i, e, hi, he⟩
    simp only [from_scenario_multiple, List.map_map]
    exact collect_range_err _ num i e hi he
  · intro rs hok
    simp only [from_scenario_controlchart_multiple, List.map_map] at hok
    exact ccCollect_range_ok _ num rs hok
  · intro h hno
    rcases h with ⟨i, e, hi, he⟩
    simp only [from_scenario_controlchart_multiple, List.map_map]
    exact ccCollect_range_err _ num i e hi he hno

/-! ### Concrete instantiations of the Parameter Source interface,
used to evaluate the theorems on closed inputs. -/

/-- A last change point with three regime transitions defined. -/
def testLastCp : Nat → Except String Param :=
  fun k => if k ≤ 3 then Except.ok ((5 : Int), (1 : Int))
           else Except.error "index 4 is out of range"

/-- A concrete scenario: one in-control step, one pre-final step at the
baseline regime and one shifted step, sample size 2, with a deterministic
sampler that emits the regime mean plus the stream position. -/
def testScenario : Scenario where
  nRaw := 2
  decomplession := Except.ok [((0 : Int), (1 : Int)), (0, 1), (5, 1)]
  decomp_exclude_last :=
    Except.ok ([((0 : Int), (1 : Int))], [((0 : Int), (1 : Int)), (5, 1)],
      testLastCp)
  in_control_all := fun _ => true
  index_out_of_control := fun _ => none
  out_of_control := fun p => decide (9 ≤ p.fst)
  mle := fun xs => Except.ok (xs.headI, 1)
  mle_all := fun xss => Except.ok (xss.map (fun xs => (xs.headI, 1)))
  rand_with_n := fun p rng n =>
    (List.replicate n (p.fst + Int.ofNat rng), rng + 1)

/-- `testScenario` with a pre-final-regime scan that signals at index 0. -/
def scenTrigger : Scenario :=
  { testScenario with index_out_of_control := fun _ => some 0 }

/-- `testScenario` with an exhausted last change point: every parameter
request fails. -/
def scenErrCp : Scenario :=
  { testScenario with
    decomp_exclude_last :=
      Except.ok ([((0 : Int), (1 : Int))], [((0 : Int), (1 : Int)), (5, 1)],
        fun _ => Except.error "x") }

/-- The identity scenario codec: a trivially faithful external serializer. -/
def idCodec : ScenCodec Scenario := ⟨fun s => s, fun s => Except.ok s⟩

/-! ### Witnesses -/

/-- Witness for C2 on `scenTrigger`: the signalled step 0 is kept inclusive
and generation stops there, even with zero phase-3 fuel. -/
theorem early_termination_witness :
    gen_random_controlchart scenTrigger 0 1 0 =
      CcResult.ok [[0, 0], [1, 1]] ∧
    (((rand_steps scenTrigger [((0 : Int), (1 : Int)), (5, 1)] 1 2).fst).take
      1).length = 1 :=
  early_termination scenTrigger 0 1 [((0 : Int), (1 : Int))]
    [((0 : Int), (1 : Int)), (5, 1)] testLastCp 2 [[0, 0]] 1
    [(1, 1), (7, 1)] 0 rfl rfl rfl rfl rfl (by decide) 0

/-- Witness for C3 on `testScenario` at seed 0: the accepted baseline
returned by the phase-1 loop is the prefix of the output and passes the
in-control test. -/
theorem baseline_in_control_witness :
    ∃ inctrl_param dec_param last_cp n base rng1 rest pd,
      testScenario.decomp_exclude_last =
        Except.ok (inctrl_param, dec_param, last_cp) ∧
      testScenario.n_as_usize = Except.ok n ∧
      baseline_loop testScenario inctrl_param n 1 (mtNew 0) =
        CcResult.ok (base, rng1) ∧
      ([[0, 0], [1, 1], [7, 7], [8, 8], [9, 9]] : List (List Obs)) =
        base ++ rest ∧
      testScenario.mle_all base = Except.ok pd ∧
      testScenario.in_control_all pd = true :=
  baseline_in_control testScenario 0 1 5
    ⟨testScenario, 0, [[0, 0], [1, 1], [7, 7], [8, 8], [9, 9]]⟩ rfl

/-- Witness for C4 on `testScenario` at seed 0: the run ends at the first
post-change-point step whose estimate signals. -/
theorem detection_invariant_witness :
    ∃ pre lastb,
      ([[0, 0], [1, 1], [7, 7], [8, 8], [9, 9]] : List (List Obs)) =
        [[0, 0]] ++
          (rand_steps testScenario [((0 : Int), (1 : Int)), (5, 1)] 1 2).fst
          ++ (pre ++ [lastb]) ∧
      (∃ q, testScenario.mle lastb = Except.ok q ∧
        testScenario.out_of_control q = true) ∧
      (∀ x ∈ pre, ∃ q, testScenario.mle x = Except.ok q ∧
        testScenario.out_of_control q = false) :=
  detection_invariant testScenario 0 1 5
    ⟨testScenario, 0, [[0, 0], [1, 1], [7, 7], [8, 8], [9, 9]]⟩
    [((0 : Int), (1 : Int))] [((0 : Int), (1 : Int)), (5, 1)] testLastCp 2
    [[0, 0]] 1 [(1, 1), (7, 1)] rfl rfl rfl rfl rfl rfl

/-- Witness for C5 on `testScenario` with two seeds 0 and 1. -/
theorem batch_order_fail_fast_witness :
    ([⟨testScenario, 0, [[0, 0], [1, 1], [7, 7]]⟩,
      ⟨testScenario, 1, [[1, 1], [2, 2], [8, 8]]⟩] :
        List RandomScenario).length = 2 ∧
    ∀ i, i < 2 → ∃ r,
      ([⟨testScenario, 0, [[0, 0], [1, 1], [7, 7]]⟩,
        ⟨testScenario, 1, [[1, 1], [2, 2], [8, 8]]⟩] :
          List RandomScenario)[i]? = some r ∧
      from_scenario_seed testScenario i = Except.ok r :=
  (batch_order_fail_fast testScenario 2 (fun i => i) 1 5).1
    [⟨testScenario, 0, [[0, 0], [1, 1], [7, 7]]⟩,
     ⟨testScenario, 1, [[1, 1], [2, 2], [8, 8]]⟩] rfl

/-- Witness for C6 on `testScenario` at seed 0. -/
theorem from_scenario_seed_shape_witness :
    ∃ dec n, testScenario.decomplession = Except.ok dec ∧
      usize_try_from testScenario.nRaw = some n ∧
      ([[0, 0], [1, 1], [7, 7]] : List (List Obs)).length = dec.length ∧
      ∀ b ∈ ([[0, 0], [1, 1], [7, 7]] : List (List Obs)), b.length = n :=
  from_scenario_seed_shape testScenario 0
    ⟨testScenario, 0, [[0, 0], [1, 1], [7, 7]]⟩
    (by intro p rng k; simp [testScenario]) rfl

/-- Witness for C7: a round trip at seed 42 through the identity codec. -/
theorem toml_roundtrip_witness :
    parse_toml_str idCodec
      (to_toml_string idCodec ⟨testScenario, 42, [[1, 2]]⟩) =
      Except.ok ⟨testScenario, 42, [[1, 2]]⟩ :=
  toml_roundtrip idCodec ⟨testScenario, 42, [[1, 2]]⟩ rfl (by decide)

/-- Witness for C8 on `scenErrCp`: the first phase-3 request is made at
index 1, fails, and aborts the generation with the index-range error. -/
theorem outctrl_index_range_error_witness :
    gen_random_controlchart scenErrCp 0 1 1 =
      CcResult.err
        "Parameters are out of range before control chart alart.: x" :=
  (outctrl_index_range_error scenErrCp 0 1 [((0 : Int), (1 : Int))]
    [((0 : Int), (1 : Int)), (5, 1)] (fun _ => Except.error "x") 2
    [[0, 0]] 1 [(1, 1), (7, 1)] "x" rfl rfl rfl rfl rfl).2 rfl 0

/-- Witness for C9 on `testScenario` at seed 0. -/
theorem generated_sequence_nonempty_witness :
    (∀ rs, from_scenario_seed testScenario 0 = Except.ok rs →
      rs.random_variables ≠ []) ∧
    (∀ rs, from_scenario_seed_controlchart testScenario 0 1 5 =
      CcResult.ok rs → rs.random_variables ≠ []) :=
  generated_sequence_nonempty testScenario 0 1 5
    (by intro dec h; simp only [testScenario] at h; cases h; simp)

/-- Witness for C10 on `testScenario`, whose interface satisfies both
preconditions. -/
theorem slice_within_bounds_witness :
    gen_random_controlchart testScenario 0 1 5 ≠ CcResult.oob :=
  slice_within_bounds testScenario
    (by intro ps i h; simp [testScenario] at h)
    (by intro xss ps h; simp only [testScenario] at h; cases h; simp)
    0 1 5

end RandScenario
